import Mathlib

/-!
Shallow embedding of the go-jsonrpc2 server (src/server.go and the error
taxonomy file) in Lean 4.  JSON values are modelled by an inductive `Json`
type; `json.RawMessage` fields that Go leaves nil are modelled by
`Option Json` with `none` for the absent field.  Durations are natural
numbers of abstract time units; a handler carries, besides its result
function, the time it takes to run, so that the timeout race of
`handleAsync` can be expressed.
-/

namespace JsonRpc2

/-- A JSON value. Numbers are modelled as integers, which covers every
numeric literal appearing in the protocol-level fields (ids, error codes). -/
inductive Json where
  | null : Json
  | bool (b : Bool) : Json
  | num (n : Int) : Json
  | str (s : String) : Json
  | arr (xs : List Json) : Json
  | obj (fields : List (String × Json)) : Json

/-- `rpcError` from the error taxonomy file: an integer code and a message.
In Go this is the concrete struct behind the `Error` interface; its
`Error()` method returns `Message` and `Code()` returns `ErrorCode`. -/
structure rpcError where
  ErrorCode : Int
  Message : String
  deriving Repr, DecidableEq

def ErrParseError : rpcError := ⟨-32700, "Parse error"⟩

def ErrInvalidRequest : rpcError := ⟨-32600, "Invalid request"⟩

def ErrMethodNotFound : rpcError := ⟨-32601, "Method not found"⟩

def ErrInvalidParams : rpcError := ⟨-32602, "Invalid Params"⟩

/-- `NewError(code, msg)` builds a custom rpc error. -/
def NewError (code : Int) (msg : String) : rpcError := ⟨code, msg⟩

/-- `NewInternalError(msg)` wraps a message with the fixed code -32000. -/
def NewInternalError (msg : String) : rpcError := NewError (-32000) msg

/-- A Go `error` value as seen by `makeResponseJson`: either a value that
implements the `jsonrpc2.Error` interface (carrying a code), or a plain
error exposing only a message (such as `context.DeadlineExceeded`, whose
message is "context deadline exceeded"). -/
inductive GoError where
  | rpc (e : rpcError) : GoError
  | plain (msg : String) : GoError
  deriving Repr, DecidableEq

/-- The `request` struct: `ID` and `Params` are `json.RawMessage` (absent
field leaves them nil, modelled `none`; a literal `null` in the payload is
stored, modelled `some Json.null`), `Version` is the `jsonrpc` field and
`Method` the `method` field, both left at "" when absent or null. -/
structure request where
  ID : Option Json
  Version : String
  Method : String
  Params : Option Json

instance : Inhabited request := ⟨⟨none, "", "", none⟩⟩

/-- The `response` struct: `Result` and `Error` both carry `omitempty`,
and for a field of interface type Go's `omitempty` drops it exactly when
the interface value is nil, hence `none`. -/
structure response where
  ID : Option Json
  Version : String
  Result : Option Json
  Error : Option rpcError

/-- A raw payload handed to the server: either bytes that are not
well-formed JSON at all, or a parsed JSON value. Batch elements are
always well-formed (they were sliced out of a parsed array), so they
enter as `value`. -/
inductive RawPayload where
  | malformed : RawPayload
  | value (j : Json) : RawPayload

/-- One step of `json.Unmarshal` into the `request` struct: assign one
object member. Unknown keys are ignored; a `null` member value leaves a
string field untouched (Go semantics) but is stored verbatim into a
`RawMessage` field; a member whose value has the wrong type for a string
field aborts decoding with an error. Later duplicate keys overwrite
earlier ones, as in Go's streaming decoder. -/
def assignField (r : request) : String × Json → Except Unit request
  | ("id", v) => .ok { r with ID := some v }
  | ("params", v) => .ok { r with Params := some v }
  | ("jsonrpc", Json.str s) => .ok { r with Version := s }
  | ("jsonrpc", Json.null) => .ok r
  | ("jsonrpc", _) => .error ()
  | ("method", Json.str s) => .ok { r with Method := s }
  | ("method", Json.null) => .ok r
  | ("method", _) => .error ()
  | (_, _) => .ok r

/-- `json.Unmarshal(jsonString, &request{})`: fails on malformed bytes and
on any non-object, non-null top level value; a top level `null` succeeds
and leaves the zero struct. -/
def decodeRequest : RawPayload → Except Unit request
  | .malformed => .error ()
  | .value Json.null => .ok default
  | .value (Json.obj fields) => fields.foldlM assignField default
  | .value _ => .error ()

/-- `json.Unmarshal(jsonString, &arr)` for `arr : []json.RawMessage`:
succeeds on a JSON array (yielding its elements) and on a top level
`null` (yielding the nil slice, length 0); fails otherwise. -/
def decodeAsArray : RawPayload → Option (List Json)
  | .value (Json.arr xs) => some xs
  | .value Json.null => some []
  | _ => none

/-- `validateRequest`: invalid iff the version differs from "2.0" or the
method is empty. Returns the error, `none` meaning valid. -/
def validateRequest (req : request) : Option rpcError :=
  if req.Version ≠ "2.0" then some ErrInvalidRequest
  else if req.Method = "" then some ErrInvalidRequest
  else none

/-- The error translation inside `makeResponseJson`: a value implementing
the `Error` interface is rebuilt as `NewError(e.Code(), e.Error())`, any
other error is wrapped by `NewInternalError(error.Error())`. -/
def errorToRpc : GoError → rpcError
  | .rpc e => NewError e.ErrorCode e.Message
  | .plain m => NewInternalError m

/-- `makeResponseJson`: suppresses the response for a valid notification
(valid request whose ID is nil), otherwise builds the response, copying
the request's ID, fixing the version, translating the error through
`errorToRpc` and storing the result unconditionally. -/
def makeResponseJson (req : request) (result : Option Json) (err : Option GoError) :
    Option response :=
  match validateRequest req, req.ID with
  | none, none => none
  | _, _ => some
    { ID := req.ID
      Version := "2.0"
      Result := result
      Error := err.map errorToRpc }

/-- A registered handler: its outcome as a function of the params, plus
the wall-clock time the invocation takes (abstract units), used only by
the timeout race. -/
structure Handler where
  run : Option Json → Option Json × Option GoError
  time : Option Json → Nat

/-- The `server` struct: the dispatch table and the default timeout.
`time.Duration` is a signed integer type, so the timeout is an `Int`. -/
structure server where
  handlers : String → Option Handler
  timeout : Int

def NewServer : server := ⟨fun _ => none, 0⟩

def SetDefaultTimeout (s : server) (t : Int) : server := { s with timeout := t }

def DefineMethod (s : server) (method : String) (h : Handler) : server :=
  { s with handlers := fun m => if m = method then some h else s.handlers m }

/-- `handleAsync`: with no deadline the handler simply runs and its own
result and error are returned. With a deadline `t`, a timer goroutine
fires at `t` while the handler finishes at its own time; the first to
signal `done` determines the outcome. A handler strictly faster than the
timer wins with its own pair; otherwise the timer wins and the outcome is
`context.DeadlineExceeded` with the result still at its zero value. (An
exact tie is a scheduler race in Go; the model resolves it to the timer.
Every theorem below only relies on the two strict cases.) -/
def handleAsync (deadline : Option Nat) (h : Handler) (params : Option Json) :
    Option Json × Option GoError :=
  match deadline with
  | none => h.run params
  | some t =>
    if h.time params < t then h.run params
    else (none, some (GoError.plain "context deadline exceeded"))

/-- `serveSingleRequest`: decode, validate, look up the handler, derive
the context deadline from the server timeout when it is positive, run the
handler under `handleAsync` and assemble the response. -/
def serveSingleRequest (s : server) (jsonString : RawPayload) : Option response :=
  match decodeRequest jsonString with
  | .error _ => makeResponseJson default none (some (GoError.rpc ErrParseError))
  | .ok r =>
    match validateRequest r with
    | some e => makeResponseJson r none (some (GoError.rpc e))
    | none =>
      match s.handlers r.Method with
      | none => makeResponseJson r none (some (GoError.rpc ErrMethodNotFound))
      | some h =>
        let deadline : Option Nat := if s.timeout > 0 then some s.timeout.toNat else none
        let out := handleAsync deadline h r.Params
        makeResponseJson r out.1 out.2

/-- `serveBatchRequest`: run every element through `serveSingleRequest`
(concurrently in Go, with slot `i` receiving element `i`'s response),
then collect the non-nil responses in input order; an all-nil batch
yields nil. -/
def serveBatchRequest (s : server) (rs : List Json) : Option (List response) :=
  let rsps := rs.map fun e => serveSingleRequest s (.value e)
  let result := rsps.filterMap id
  if result.length = 0 then none else some result

/-- Field order of `json.Marshal` on the `response` struct: `id` (nil
RawMessage marshals as `null`), `jsonrpc`, then `result` and `error`,
each omitted when nil (`omitempty` on an interface field). -/
def serializeResponse (r : response) : Json :=
  Json.obj
    ([("id", r.ID.getD Json.null), ("jsonrpc", Json.str r.Version)]
      ++ (match r.Result with
          | some v => [("result", v)]
          | none => [])
      ++ (match r.Error with
          | some e =>
            [("error", Json.obj [("code", Json.num e.ErrorCode),
                                 ("message", Json.str e.Message)])]
          | none => []))

/-- The response computed for batch element `i`: the Go goroutine spawned
for index `i` runs `s.serveSingleRequest(rs[i])` and writes it to
`rsps[i]`. Out-of-range indices never occur for a schedule that is a
permutation of the element indices. -/
def elemResponse (s : server) (rs : List Json) (i : Nat) : Option response :=
  serveSingleRequest s (.value (rs.getD i Json.null))

/-- The `rsps` slice after the batch goroutines finished in the order
given by `order` (each completion writes its own slot); an outer `none`
marks a slot not yet written. -/
def runOrder (s : server) (rs : List Json) (order : List Nat) :
    List (Option (Option response)) :=
  order.foldl (fun acc i => acc.set i (some (elemResponse s rs i)))
    (List.replicate rs.length none)

/-- First-match lookup of a key among a JSON object's members. -/
def lookupField : List (String × Json) → String → Option Json
  | [], _ => none
  | (k, v) :: rest, key => if k = key then some v else lookupField rest key

/-- Modelled from the spec: the repository only serializes responses
(`json.Marshal` in `makeResponseJson`) and defines no deserializer, but
the spec's round-trip property needs one. This reads back the wire format
of §6: a JSON object with `id`, `jsonrpc`, and optionally `result` or
`error` (itself `{code, message}`) members. -/
def deserializeResponse (j : Json) : Option response :=
  match j with
  | Json.obj fields =>
    match lookupField fields "jsonrpc" with
    | some (Json.str v) =>
      some
        { ID := lookupField fields "id"
          Version := v
          Result := lookupField fields "result"
          Error :=
            match lookupField fields "error" with
            | some (Json.obj ef) =>
              match lookupField ef "code", lookupField ef "message" with
              | some (Json.num c), some (Json.str m) => some ⟨c, m⟩
              | _, _ => none
            | _ => none }
    | _ => none
  | _ => none

/-- `ServeRequest`: first try to decode the payload as an array; an empty
array (or a top level `null`) yields the invalid-request response built
from the zero request, a non-empty array goes to the batch path, and
anything else is served as a single call. The returned value models the
marshalled bytes, `none` being the nil (absent) response. -/
def ServeRequest (s : server) (jsonString : RawPayload) : Option Json :=
  match decodeAsArray jsonString with
  | some arr =>
    if arr.length = 0 then
      (makeResponseJson default none (some (GoError.rpc ErrInvalidRequest))).map
        serializeResponse
    else
      (serveBatchRequest s arr).map fun l => Json.arr (l.map serializeResponse)
  | none => (serveSingleRequest s jsonString).map serializeResponse

/-! ## General lemmas about the embedded definitions -/

theorem validateRequest_of_ne_none {r : request} (h : validateRequest r ≠ none) :
    validateRequest r = some ErrInvalidRequest := by
  unfold validateRequest at h ⊢
  split
  · rfl
  · split
    · rfl
    · rename_i h1 h2
      rw [if_neg h1, if_neg h2] at h
      exact absurd rfl h

theorem makeResponseJson_notification {req : request} (result : Option Json)
    (err : Option GoError) (hv : validateRequest req = none) (hid : req.ID = none) :
    makeResponseJson req result err = none := by
  unfold makeResponseJson
  rw [hv, hid]

theorem makeResponseJson_of_not_notification {req : request} (result : Option Json)
    (err : Option GoError) (h : ¬(validateRequest req = none ∧ req.ID = none)) :
    makeResponseJson req result err =
      some ⟨req.ID, "2.0", result, err.map errorToRpc⟩ := by
  unfold makeResponseJson
  split
  · exact absurd ⟨‹_›, ‹_›⟩ h
  · rfl

/-- Any payload that decodes successfully into a request is either the
literal `null` (yielding the zero request) or a JSON object. -/
theorem decodeRequest_ok_cases {p : RawPayload} {r : request}
    (hd : decodeRequest p = .ok r) :
    (p = .value Json.null ∧ r = default) ∨ ∃ f, p = .value (Json.obj f) := by
  cases p with
  | malformed => exact absurd hd (by simp [decodeRequest])
  | value j =>
    cases j with
    | null => exact Or.inl ⟨rfl, by simpa [decodeRequest] using hd.symm⟩
    | obj f => exact Or.inr ⟨f, rfl⟩
    | bool b => exact absurd hd (by simp [decodeRequest])
    | num n => exact absurd hd (by simp [decodeRequest])
    | str s => exact absurd hd (by simp [decodeRequest])
    | arr xs => exact absurd hd (by simp [decodeRequest])

theorem serveRequest_of_not_array {s : server} {p : RawPayload}
    (hp : decodeAsArray p = none) :
    ServeRequest s p = (serveSingleRequest s p).map serializeResponse := by
  unfold ServeRequest
  rw [hp]

theorem serveSingleRequest_invalid {s : server} {p : RawPayload} {r : request}
    (hd : decodeRequest p = .ok r) (hv : validateRequest r ≠ none) :
    serveSingleRequest s p = some ⟨r.ID, "2.0", none, some ErrInvalidRequest⟩ := by
  simp only [serveSingleRequest, hd, validateRequest_of_ne_none hv]
  rw [makeResponseJson_of_not_notification _ _ (fun hc => hv hc.1)]
  rfl

theorem serveSingleRequest_notification {s : server} {p : RawPayload} {r : request}
    (hd : decodeRequest p = .ok r) (hv : validateRequest r = none) (hid : r.ID = none) :
    serveSingleRequest s p = none := by
  simp only [serveSingleRequest, hd, hv]
  cases hh : s.handlers r.Method with
  | none => exact makeResponseJson_notification _ _ hv hid
  | some h => exact makeResponseJson_notification _ _ hv hid

theorem serveSingleRequest_handler {s : server} {p : RawPayload} {r : request}
    {h : Handler} (hd : decodeRequest p = .ok r) (hv : validateRequest r = none)
    (hh : s.handlers r.Method = some h) :
    serveSingleRequest s p =
      makeResponseJson r
        (handleAsync (if s.timeout > 0 then some s.timeout.toNat else none) h r.Params).1
        (handleAsync (if s.timeout > 0 then some s.timeout.toNat else none) h r.Params).2 := by
  simp only [serveSingleRequest, hd, hv, hh]

/-- Behavior of `ServeRequest` on any decodable but invalid payload: the
response echoes the decoded request's ID. -/
theorem serveRequest_invalid {s : server} {p : RawPayload} {r : request}
    (hd : decodeRequest p = .ok r) (hv : validateRequest r ≠ none) :
    ServeRequest s p =
      some (serializeResponse ⟨r.ID, "2.0", none, some ErrInvalidRequest⟩) := by
  rcases decodeRequest_ok_cases hd with ⟨hp, hr⟩ | ⟨f, hp⟩
  · subst hp hr
    rfl
  · subst hp
    rw [serveRequest_of_not_array (by rfl), serveSingleRequest_invalid hd hv]
    rfl

theorem serveRequest_notification {s : server} {p : RawPayload} {r : request}
    (hd : decodeRequest p = .ok r) (hv : validateRequest r = none) (hid : r.ID = none) :
    ServeRequest s p = none := by
  rcases decodeRequest_ok_cases hd with ⟨hp, hr⟩ | ⟨f, hp⟩
  · subst hr
    exact absurd hv (by simp [validateRequest, default])
  · subst hp
    rw [serveRequest_of_not_array (by rfl), serveSingleRequest_notification hd hv hid]
    rfl

theorem serveRequest_handler {s : server} {p : RawPayload} {r : request}
    {h : Handler} (hd : decodeRequest p = .ok r) (hv : validateRequest r = none)
    (hh : s.handlers r.Method = some h) :
    ServeRequest s p =
      (makeResponseJson r
        (handleAsync (if s.timeout > 0 then some s.timeout.toNat else none) h r.Params).1
        (handleAsync (if s.timeout > 0 then some s.timeout.toNat else none) h r.Params).2).map
        serializeResponse := by
  rcases decodeRequest_ok_cases hd with ⟨hp, hr⟩ | ⟨f, hp⟩
  · subst hr
    exact absurd hv (by simp [validateRequest, default])
  · subst hp
    rw [serveRequest_of_not_array (by rfl), serveSingleRequest_handler hd hv hh]

/-- Writing slot `i` of an array for every `i` drawn from `order`, where
the written value depends only on `i`: the cell at `j` ends up holding
`f j` exactly when `j` occurred in `order` (and is in range), no matter
in which order the writes happened. -/
theorem foldl_set_getElem? {α : Type} (f : Nat → α) :
    ∀ (order : List Nat) (init : List (Option α)) (j : Nat),
      (order.foldl (fun acc i => acc.set i (some (f i))) init)[j]? =
        if j ∈ order ∧ j < init.length then some (some (f j)) else init[j]? := by
  intro order
  induction order with
  | nil => intro init j; simp
  | cons i rest ih =>
    intro init j
    rw [List.foldl_cons, ih, List.length_set]
    by_cases hij : i = j
    · subst hij
      by_cases hlen : i < init.length
      · by_cases hjr : i ∈ rest
        · rw [if_pos ⟨hjr, hlen⟩, if_pos ⟨List.mem_cons_self i rest, hlen⟩]
        · rw [if_neg (fun hc => hjr hc.1), if_pos ⟨List.mem_cons_self i rest, hlen⟩,
            List.getElem?_set_self hlen]
      · rw [if_neg (fun hc => hlen hc.2), if_neg (fun hc => hlen hc.2),
          List.getElem?_eq_none (show init.length ≤ i by omega)]
        exact List.getElem?_eq_none (by rw [List.length_set]; omega)
    · rw [List.getElem?_set_ne hij]
      exact if_congr (and_congr_left' (by simp [List.mem_cons, Ne.symm hij])) rfl rfl

/-- However the batch goroutines are scheduled (any permutation of the
element indices as completion order), the `rsps` slice ends up holding, at
every position, the response of the element with that index. -/
theorem runOrder_eq {s : server} {rs : List Json} {order : List Nat}
    (hperm : order.Perm (List.range rs.length)) :
    runOrder s rs order = rs.map fun e => some (serveSingleRequest s (.value e)) := by
  apply List.ext_getElem?
  intro j
  unfold runOrder
  rw [foldl_set_getElem?, List.getElem?_map, List.length_replicate]
  have hmem : j ∈ order ↔ j < rs.length := by rw [hperm.mem_iff, List.mem_range]
  by_cases hj : j < rs.length
  · rw [if_pos ⟨hmem.mpr hj, hj⟩, List.getElem?_eq_getElem hj]
    have he : elemResponse s rs j = serveSingleRequest s (.value (rs.get ⟨j, hj⟩)) := by
      unfold elemResponse
      rw [List.getD_eq_getElem?_getD, List.getElem?_eq_getElem hj]
      rfl
    rw [he]
    rfl
  · rw [if_neg (fun hc => hj hc.2),
      List.getElem?_eq_none (show rs.length ≤ j by omega),
      List.getElem?_eq_none
        (show (List.replicate rs.length (none : Option (Option response))).length ≤ j by
          rw [List.length_replicate]; omega)]
    rfl

/-- `serveBatchRequest` on elements that all produce `nil` responses
returns `nil` itself. -/
theorem serveBatchRequest_all_none {s : server} {rs : List Json}
    (h : ∀ e ∈ rs, serveSingleRequest s (.value e) = none) :
    serveBatchRequest s rs = none := by
  have hnil : (rs.map fun e => serveSingleRequest s (.value e)).filterMap id = [] := by
    rw [List.filterMap_map]
    exact List.filterMap_eq_nil_iff.mpr (fun a ha => h a ha)
  simp only [serveBatchRequest, hnil]
  rfl

/-- `ServeRequest` on a non-empty batch delegates to `serveBatchRequest`
and serializes its collected responses. -/
theorem serveRequest_batch {s : server} {rs : List Json} (hne : rs ≠ []) :
    ServeRequest s (.value (Json.arr rs)) =
      (serveBatchRequest s rs).map fun l => Json.arr (l.map serializeResponse) := by
  have harr : decodeAsArray (.value (Json.arr rs)) = some rs := rfl
  simp only [ServeRequest, harr]
  rw [if_neg (by simpa [List.length_eq_zero] using hne)]

/-! ## Concrete fixtures used by witnesses and counterexamples -/

/-- The echo handler registered in the repository's tests. -/
def echoHandler : Handler :=
  ⟨fun p => (some (Json.obj [("EchoResult", p.getD Json.null)]), none), fun _ => 0⟩

def echoServer : server := DefineMethod NewServer "echo" echoHandler

/-- A handler returning a nil result together with a nil error. -/
def noopHandler : Handler := ⟨fun _ => (none, none), fun _ => 0⟩

def noopServer : server := DefineMethod NewServer "noop" noopHandler

/-- A handler returning both a non-nil result and a non-nil error. -/
def bothHandler : Handler :=
  ⟨fun _ => (some (Json.str "x"), some (GoError.plain "boom")), fun _ => 0⟩

def bothServer : server := DefineMethod NewServer "both" bothHandler

/-- The wait handler of the tests: returns "ok" after `d` time units. -/
def waitHandler (d : Nat) : Handler :=
  ⟨fun _ => (some (Json.str "ok"), none), fun _ => d⟩

/-- The timeout-test server: default timeout 5, one "wait" method. -/
def waitServer (d : Nat) : server :=
  SetDefaultTimeout (DefineMethod NewServer "wait" (waitHandler d)) 5

def echoCallPayload : RawPayload := .value (Json.obj
  [("jsonrpc", Json.str "2.0"), ("method", Json.str "echo"),
   ("params", Json.str "hi"), ("id", Json.num 1)])

/-! ## Claims -/

def c1Payload : RawPayload := .value (Json.obj
  [("jsonrpc", Json.str "1.0"), ("method", Json.str "m"), ("id", Json.num 7)])

/-- C1, counterexample: the payload `{"jsonrpc":"1.0","method":"m","id":7}`
decodes into a Call and fails structural validation (version is not
"2.0"), yet `ServeRequest` answers with error code -32600 and id `7`
taken from the payload, not id null as the claim requires. -/
theorem serve_invalid_counterexample :
    ServeRequest NewServer c1Payload = some (Json.obj
      [("id", Json.num 7), ("jsonrpc", Json.str "2.0"),
       ("error", Json.obj [("code", Json.num (-32600)),
                           ("message", Json.str "Invalid request")])]) ∧
    Json.num 7 ≠ Json.null :=
  ⟨rfl, fun h => Json.noConfusion h⟩

/-- C1 (amended): for every payload that decodes into a Call but fails
structural validation, `ServeRequest` returns a Response with error code
-32600 whose id is the id decoded from the payload — so null exactly when
the payload carried no id field, and the payload's own id otherwise. -/
theorem serve_invalid_request_echoes_id {s : server} {p : RawPayload} {r : request}
    (hd : decodeRequest p = .ok r) (hv : validateRequest r ≠ none) :
    ServeRequest s p =
      some (serializeResponse ⟨r.ID, "2.0", none, some ErrInvalidRequest⟩) :=
  serveRequest_invalid hd hv

def c1WitnessPayload : RawPayload := .value (Json.obj [("a", Json.num 1)])

/-- C1, witness: the amended theorem applied to the repository's own test
payload `{"a": 1}` (decodes to the zero Call, invalid, no id). -/
theorem serve_invalid_request_echoes_id_witness :
    decodeRequest c1WitnessPayload = .ok default ∧
    validateRequest (default : request) ≠ none ∧
    ServeRequest NewServer c1WitnessPayload =
      some (serializeResponse ⟨none, "2.0", none, some ErrInvalidRequest⟩) :=
  ⟨rfl, by decide,
    @serve_invalid_request_echoes_id NewServer c1WitnessPayload default rfl (by decide)⟩

/-- C2: for every structurally valid Call whose id is absent,
`ServeRequest` returns the absent response, whatever the server's
handlers and timeout do; and every Call that failed validation always
produces a response. -/
theorem serve_notification_suppression {s : server} {p : RawPayload} {r : request}
    (hd : decodeRequest p = .ok r) :
    (validateRequest r = none → r.ID = none → ServeRequest s p = none) ∧
    (validateRequest r ≠ none → (ServeRequest s p).isSome = true) := by
  constructor
  · intro hv hid
    exact serveRequest_notification hd hv hid
  · intro hv
    rw [serveRequest_invalid hd hv]
    rfl

def c2WitnessPayload : RawPayload := .value (Json.obj
  [("jsonrpc", Json.str "2.0"), ("method", Json.str "echo"),
   ("params", Json.str "hi")])

/-- C2, witness: the notification `{"jsonrpc":"2.0","method":"echo",
"params":"hi"}` from the test suite is suppressed. -/
theorem serve_notification_suppression_witness :
    decodeRequest c2WitnessPayload =
      .ok ⟨none, "2.0", "echo", some (Json.str "hi")⟩ ∧
    ServeRequest echoServer c2WitnessPayload = none :=
  ⟨rfl, (@serve_notification_suppression echoServer c2WitnessPayload
    ⟨none, "2.0", "echo", some (Json.str "hi")⟩ rfl).1 rfl rfl⟩

/-- C5: when a response is produced, a failure carrying a code keeps its
code and message verbatim, any other failure is wrapped as an internal
error with code -32000 and the original message, and a success populates
the result field with no error field. -/
theorem handler_error_mapping {req : request} {result : Option Json}
    {err : Option GoError} {resp : response}
    (hmk : makeResponseJson req result err = some resp) :
    (∀ e, err = some (GoError.rpc e) →
      resp.Error = some (NewError e.ErrorCode e.Message)) ∧
    (∀ m, err = some (GoError.plain m) →
      resp.Error = some (NewError (-32000) m)) ∧
    (err = none → resp.Error = none ∧ resp.Result = result) := by
  have hresp : resp = ⟨req.ID, "2.0", result, err.map errorToRpc⟩ := by
    unfold makeResponseJson at hmk
    split at hmk
    · exact Option.noConfusion hmk
    · exact (Option.some.inj hmk).symm
  subst hresp
  refine ⟨?_, ?_, ?_⟩
  · intro e he; rw [he]; rfl
  · intro m he; rw [he]; rfl
  · intro he; rw [he]; exact ⟨rfl, rfl⟩

/-- C5, witness: the README's custom error -32001 "My Custom Error"
passes through verbatim. -/
theorem handler_error_mapping_witness :
    makeResponseJson ⟨some (Json.num 1), "2.0", "m", none⟩ none
        (some (GoError.rpc ⟨-32001, "My Custom Error"⟩)) =
      some ⟨some (Json.num 1), "2.0", none, some ⟨-32001, "My Custom Error"⟩⟩ ∧
    (⟨some (Json.num 1), "2.0", none, some ⟨-32001, "My Custom Error"⟩⟩ :
        response).Error = some (NewError (-32001) "My Custom Error") :=
  ⟨rfl, (@handler_error_mapping ⟨some (Json.num 1), "2.0", "m", none⟩ none
    (some (GoError.rpc ⟨-32001, "My Custom Error"⟩))
    ⟨some (Json.num 1), "2.0", none, some ⟨-32001, "My Custom Error"⟩⟩ rfl).1
    ⟨-32001, "My Custom Error"⟩ rfl⟩

/-- C6: a payload decoding as the empty JSON array produces the single
(non-array) invalid-request error response with code -32600 and id null,
for every server. -/
theorem empty_batch_single_error (s : server) :
    ServeRequest s (.value (Json.arr [])) = some (Json.obj
      [("id", Json.null), ("jsonrpc", Json.str "2.0"),
       ("error", Json.obj [("code", Json.num (-32600)),
                           ("message", Json.str "Invalid request")])]) :=
  rfl

/-- C3: for a valid, identified Call with a registered handler — with a
zero default timeout the handler's own outcome comes back unmodified;
with a positive timeout a handler finishing strictly before the deadline
returns its real result, while a timer firing strictly before the handler
yields the error -32000 "context deadline exceeded". -/
theorem timeout_race_behavior {s : server} {p : RawPayload} {r : request}
    {h : Handler} {i : Json} (hd : decodeRequest p = .ok r)
    (hv : validateRequest r = none) (hh : s.handlers r.Method = some h)
    (hid : r.ID = some i) :
    (s.timeout = 0 →
      ServeRequest s p = some (serializeResponse
        ⟨some i, "2.0", (h.run r.Params).1, ((h.run r.Params).2).map errorToRpc⟩)) ∧
    (0 < s.timeout → h.time r.Params < s.timeout.toNat →
      ServeRequest s p = some (serializeResponse
        ⟨some i, "2.0", (h.run r.Params).1, ((h.run r.Params).2).map errorToRpc⟩)) ∧
    (0 < s.timeout → s.timeout.toNat < h.time r.Params →
      ServeRequest s p = some (serializeResponse
        ⟨some i, "2.0", none,
         some (rpcError.mk (-32000) "context deadline exceeded")⟩)) := by
  have hnn : ¬(validateRequest r = none ∧ r.ID = none) := by
    intro hc
    rw [hid] at hc
    exact Option.noConfusion hc.2
  have hmk : ∀ result err, makeResponseJson r result err =
      some ⟨some i, "2.0", result, err.map errorToRpc⟩ := by
    intro result err
    rw [makeResponseJson_of_not_notification _ _ hnn, hid]
  refine ⟨?_, ?_, ?_⟩
  · intro ht
    rw [serveRequest_handler hd hv hh, if_neg (by omega), hmk]
    rfl
  · intro ht hlt
    rw [serveRequest_handler hd hv hh, if_pos ht]
    simp only [handleAsync]
    rw [if_pos hlt, hmk]
    rfl
  · intro ht hgt
    rw [serveRequest_handler hd hv hh, if_pos ht]
    simp only [handleAsync]
    rw [if_neg (by omega), hmk]
    rfl

def c3Payload : RawPayload := .value (Json.obj
  [("jsonrpc", Json.str "2.0"), ("method", Json.str "wait"),
   ("id", Json.str "1")])

/-- C3, witness: the test server (timeout 5) with a handler that needs
100 units answers -32000 "context deadline exceeded". -/
theorem timeout_race_behavior_witness :
    ServeRequest (waitServer 100) c3Payload = some (Json.obj
      [("id", Json.str "1"), ("jsonrpc", Json.str "2.0"),
       ("error", Json.obj [("code", Json.num (-32000)),
                           ("message", Json.str "context deadline exceeded")])]) :=
  (@timeout_race_behavior (waitServer 100) c3Payload
    ⟨some (Json.str "1"), "2.0", "wait", none⟩ (waitHandler 100) (Json.str "1")
    rfl rfl rfl rfl).2.2 (by decide) (by decide)

/-- C4: for every non-empty batch, however the per-element goroutines are
scheduled (`order`, any permutation of the indices, models their
completion order), the slot array ends up mapping input index `i` to
element `i`'s response, and `ServeRequest` outputs exactly the
non-suppressed responses in input-index order. -/
theorem batch_order_preserved {s : server} {rs : List Json} {order : List Nat}
    (hne : rs ≠ []) (hperm : order.Perm (List.range rs.length)) :
    runOrder s rs order = (rs.map fun e => some (serveSingleRequest s (.value e))) ∧
    ServeRequest s (.value (Json.arr rs)) =
      (if ((rs.map fun e => serveSingleRequest s (.value e)).filterMap id).length = 0
       then none
       else some (Json.arr
        (((rs.map fun e => serveSingleRequest s (.value e)).filterMap id).map
          serializeResponse))) := by
  refine ⟨runOrder_eq hperm, ?_⟩
  rw [serveRequest_batch hne]
  simp only [serveBatchRequest]
  by_cases hz :
      ((rs.map fun e => serveSingleRequest s (.value e)).filterMap id).length = 0
  · rw [if_pos hz, if_pos hz]
    rfl
  · rw [if_neg hz, if_neg hz]
    rfl

def c4Batch : List Json :=
  [Json.obj [("jsonrpc", Json.str "2.0"), ("method", Json.str "echo"),
     ("params", Json.num 100)],
   Json.obj [("jsonrpc", Json.str "2.0"), ("method", Json.str "echo"),
     ("params", Json.num 1), ("id", Json.str "2")]]

/-- C4, witness: the test batch of one notification and one call, with
the goroutines completing in reversed order `[1, 0]`, still produces the
call's response (and only it), in input order. -/
theorem batch_order_preserved_witness :
    runOrder echoServer c4Batch [1, 0] =
      (c4Batch.map fun e => some (serveSingleRequest echoServer (.value e))) ∧
    ServeRequest echoServer (.value (Json.arr c4Batch)) =
      some (Json.arr [Json.obj
        [("id", Json.str "2"), ("jsonrpc", Json.str "2.0"),
         ("result", Json.obj [("EchoResult", Json.num 1)])]]) := by
  have hw := @batch_order_preserved echoServer c4Batch [1, 0]
    (by simp [c4Batch]) (by decide)
  exact ⟨hw.1, by rw [hw.2]; rfl⟩

def c7NoopPayload : RawPayload := .value (Json.obj
  [("jsonrpc", Json.str "2.0"), ("method", Json.str "noop"), ("id", Json.num 1)])

def c7BothPayload : RawPayload := .value (Json.obj
  [("jsonrpc", Json.str "2.0"), ("method", Json.str "both"), ("id", Json.num 2)])

/-- C7: evaluation of the code at the failing inputs. A handler returning
a nil result and nil error yields a serialized Response with neither a
result nor an error member, and a handler returning both a result and an
error yields a Response carrying both members — the claimed
exactly-one-of-result-or-error invariant fails in both directions (the id
and version halves of the claim do hold, see the fields below). -/
theorem response_field_exclusivity_fails :
    ServeRequest noopServer c7NoopPayload =
      some (Json.obj [("id", Json.num 1), ("jsonrpc", Json.str "2.0")]) ∧
    ServeRequest bothServer c7BothPayload =
      some (Json.obj [("id", Json.num 2), ("jsonrpc", Json.str "2.0"),
        ("result", Json.str "x"),
        ("error", Json.obj [("code", Json.num (-32000)),
                            ("message", Json.str "boom")])]) :=
  ⟨rfl, rfl⟩

def c8Response : response := ⟨none, "2.0", none, some ErrParseError⟩

/-- C8, counterexample: the parse-error Response (id nil) serializes with
an `id: null` member, so deserializing its serialization yields a
Response whose ID field holds the JSON null value rather than nil — and
indeed the two distinct Responses serialize identically, so no
deserializer can round-trip both. -/
theorem response_roundtrip_counterexample :
    deserializeResponse (serializeResponse c8Response) =
      some ⟨some Json.null, "2.0", none, some ErrParseError⟩ ∧
    serializeResponse c8Response =
      serializeResponse ⟨some Json.null, "2.0", none, some ErrParseError⟩ ∧
    (⟨some Json.null, "2.0", none, some ErrParseError⟩ : response) ≠ c8Response :=
  ⟨rfl, rfl, fun h => Option.noConfusion (congrArg response.ID h)⟩

/-- C8 (amended): round-trip holds for every Response whose ID field is
present (non-nil), result-bearing and error-bearing alike; only the
nil-ID Responses are conflated with null-ID ones by serialization. -/
theorem response_roundtrip_of_id_present {r : response} (hid : r.ID.isSome = true) :
    deserializeResponse (serializeResponse r) = some r := by
  obtain ⟨ID, V, Res, Err⟩ := r
  cases ID with
  | none => simp at hid
  | some i => cases Res <;> cases Err <;> rfl

/-- C8, witness: a concrete result-bearing Response with id 1 round-trips. -/
theorem response_roundtrip_of_id_present_witness :
    ((⟨some (Json.num 1), "2.0", some (Json.str "ok"), none⟩ : response).ID.isSome
      = true) ∧
    deserializeResponse (serializeResponse
        ⟨some (Json.num 1), "2.0", some (Json.str "ok"), none⟩) =
      some ⟨some (Json.num 1), "2.0", some (Json.str "ok"), none⟩ :=
  ⟨rfl, @response_roundtrip_of_id_present
    ⟨some (Json.num 1), "2.0", some (Json.str "ok"), none⟩ rfl⟩

/-- C9: a non-empty batch all of whose elements are suppressed yields the
absent response (`none`), not an empty array. -/
theorem all_notification_batch_absent {s : server} {rs : List Json} (hne : rs ≠ [])
    (hall : ∀ e ∈ rs, serveSingleRequest s (.value e) = none) :
    ServeRequest s (.value (Json.arr rs)) = none := by
  rw [serveRequest_batch hne, serveBatchRequest_all_none hall]
  rfl

def c9Batch : List Json :=
  [Json.obj [("jsonrpc", Json.str "2.0"), ("method", Json.str "echo"),
     ("params", Json.num 100)],
   Json.obj [("jsonrpc", Json.str "2.0"), ("method", Json.str "echo"),
     ("params", Json.num 1)]]

/-- C9, witness: the all-notifications batch of the test suite is absent. -/
theorem all_notification_batch_absent_witness :
    ServeRequest echoServer (.value (Json.arr c9Batch)) = none :=
  @all_notification_batch_absent echoServer c9Batch (by simp [c9Batch]) (by
    intro e he
    simp only [c9Batch, List.mem_cons, List.not_mem_nil, or_false] at he
    rcases he with rfl | rfl <;> rfl)

/-- C10: setting any non-positive default timeout (negative included)
makes calls run with no deadline: the handler's own outcome is returned,
and the behavior coincides with the zero (unset) timeout. -/
theorem negative_timeout_unbounded {s : server} {p : RawPayload} {r : request}
    {h : Handler} {t : Int} (hd : decodeRequest p = .ok r)
    (hv : validateRequest r = none) (hh : s.handlers r.Method = some h)
    (hneg : t < 0) :
    ServeRequest (SetDefaultTimeout s t) p =
      (makeResponseJson r (h.run r.Params).1 (h.run r.Params).2).map
        serializeResponse ∧
    ServeRequest (SetDefaultTimeout s t) p =
      ServeRequest (SetDefaultTimeout s 0) p := by
  have key : ∀ u : Int, ¬u > 0 →
      ServeRequest (SetDefaultTimeout s u) p =
        (makeResponseJson r (h.run r.Params).1 (h.run r.Params).2).map
          serializeResponse := by
    intro u hu
    rw [serveRequest_handler hd hv
        (show (SetDefaultTimeout s u).handlers r.Method = some h from hh),
      if_neg (show ¬(SetDefaultTimeout s u).timeout > 0 from hu)]
    rfl
  exact ⟨key t (by omega), (key t (by omega)).trans (key 0 (by omega)).symm⟩

/-- C10, witness: the echo server with timeout -3 still answers the echo
call with the handler's own result. -/
theorem negative_timeout_unbounded_witness :
    ServeRequest (SetDefaultTimeout echoServer (-3)) echoCallPayload =
      some (Json.obj [("id", Json.num 1), ("jsonrpc", Json.str "2.0"),
        ("result", Json.obj [("EchoResult", Json.str "hi")])]) :=
  (@negative_timeout_unbounded echoServer echoCallPayload
    ⟨some (Json.num 1), "2.0", "echo", some (Json.str "hi")⟩ echoHandler (-3)
    rfl rfl rfl (by decide)).1

end JsonRpc2
